import Mathlib

/-!
Verification of the `grid` repository (crate `symetrical_grid`).

The repository contains two parallel implementations of a 2D container:

* `src/lib.rs` defines `Grid<T>` — rows of `Row<T>` (`Vec<Column<T>>`) plus a
  runtime `symetrical : bool` flag; the rectangular-only mutators `add_column`
  and `push_point` panic on an asymetrical grid.
* `src/x.rs` / `src/y.rs` / `src/point.rs` define `X<T, M>` — rows of
  `Y<T, M>` (`Vec<Point<T>>`) with a phantom mode type parameter
  (`Symetrical` / `Asymetrical`); the rectangular-only mutators exist only on
  `X<T, Symetrical>`.

`Point<T>` and `Column<T>` are transparent single-field wrappers whose
`PartialEq` compares the wrapped values, so a cell is modelled as a bare value
of type `T` and a row as `List T`.  Rust's `T: Default` bound is modelled by
`[Inhabited T]`, with `default` standing for `T::default()`.
-/

namespace GridSpec

/-- The two shape disciplines: the `Symetrical` / `Asymetrical` marker types
implementing the `Mode` trait in the crate root. -/
inductive Mode where
  | Sym : Mode
  | Asym : Mode
deriving DecidableEq

/-- `X<T, M>` (src/x.rs, lines 3-8): a vector of rows.  The mode is a phantom
type parameter, exactly as in Rust, so values of different disciplines have
different types.  A row `Y<T, M>` stores `Vec<Point<T>>` and `Point<T>` wraps a
single `T` compared by value, hence `List T` here. -/
structure X (T : Type) (M : Mode) where
  rows : List (List T)
deriving DecidableEq

namespace X

/-- `X::new` (src/x.rs, line 29): the empty grid. -/
def new (T : Type) (M : Mode) : X T M := ⟨[]⟩

/-- `X::<T, Symetrical>::add_row` (src/x.rs, lines 94-101): pushes an empty
row, then resizes that row to `self.rows[0].len()` with default values.
Resizing the freshly pushed empty row appends exactly `rows[0].len()` default
cells; `rows[0]` after the push is the old first row, or the new empty row when
the grid was empty. -/
def add_row {T : Type} [Inhabited T] (g : X T Mode.Sym) : X T Mode.Sym :=
  ⟨g.rows ++ [List.replicate (g.rows.headD []).length default]⟩

/-- `X::<T, Symetrical>::add_column` (src/x.rs, lines 114-121): if `rows` is
empty first pushes one empty row, then pushes one default cell onto every
row. -/
def add_column {T : Type} [Inhabited T] (g : X T Mode.Sym) : X T Mode.Sym :=
  ⟨(if g.rows.isEmpty then g.rows ++ [[]] else g.rows).map
      (fun r => r ++ [default])⟩

/-- First stage of `X::<T, Symetrical>::push_point` (src/x.rs, lines 139-141):
if the grid is empty, push one empty row. -/
def ensure_row {T : Type} (g : X T Mode.Sym) : X T Mode.Sym :=
  if g.rows.isEmpty then ⟨g.rows ++ [[]]⟩ else g

/-- Second stage of `X::<T, Symetrical>::push_point` (src/x.rs, lines
142-146): while `rows[0].len() <= y`, call `add_column`.  The Rust
`for _ in rows[0].len()..=y` range is computed once on entry, so the body runs
`y + 1 - rows[0].len()` times. -/
def grow_columns {T : Type} [Inhabited T] (g : X T Mode.Sym) (y : Nat) :
    X T Mode.Sym :=
  if (g.rows.headD []).length ≤ y then
    add_column^[y + 1 - (g.rows.headD []).length] g
  else g

/-- Third stage of `X::<T, Symetrical>::push_point` (src/x.rs, lines 147-151):
while `rows.len() <= x`, call `add_row`.  The Rust `for _ in rows.len()..=x`
range is computed once on entry, so the body runs `x + 1 - rows.len()`
times. -/
def grow_rows {T : Type} [Inhabited T] (g : X T Mode.Sym) (x : Nat) :
    X T Mode.Sym :=
  if g.rows.length ≤ x then
    add_row^[x + 1 - g.rows.length] g
  else g

/-- `X::<T, Symetrical>::push_point` (src/x.rs, lines 138-153): bootstraps one
row if the grid is empty, grows columns, grows rows, then writes `value` at
`rows[x][y]`. -/
def push_point {T : Type} [Inhabited T] (g : X T Mode.Sym) (x y : Nat) (v : T) :
    X T Mode.Sym :=
  ⟨(grow_rows (grow_columns (ensure_row g) y) x).rows.set x
    (((grow_rows (grow_columns (ensure_row g) y) x).rows.getD x []).set y v)⟩

/-- `X::<T, Asymetrical>::add_row` (src/x.rs, lines 184-186): pushes one empty
row, no resizing. -/
def add_row_asym {T : Type} (g : X T Mode.Asym) : X T Mode.Asym :=
  ⟨g.rows ++ [[]]⟩

/-- `X::<T, Asymetrical>::push_row` (src/x.rs, lines 217-219): appends a
fully-formed row. -/
def push_row {T : Type} (g : X T Mode.Asym) (r : List T) : X T Mode.Asym :=
  ⟨g.rows ++ [r]⟩

/-- `X::get_point` (src/x.rs, lines 45-54): `None` when `x >= self.len()`,
`None` when `y >= self[x].len()`, otherwise the value at `self[x][y]`. -/
def get_point {T : Type} [Inhabited T] {M : Mode} (g : X T M) (x y : Nat) :
    Option T :=
  if x ≥ g.rows.length then none
  else if y ≥ (g.rows.getD x []).length then none
  else some ((g.rows.getD x []).getD y default)

/-- `X::get_point_mut` (src/x.rs, lines 65-74): the same two bound checks as
`get_point`; on success the returned mutable reference designates the cell at
`self[x][y]`, modelled here by returning that cell's value. -/
def get_point_mut {T : Type} [Inhabited T] {M : Mode} (g : X T M) (x y : Nat) :
    Option T :=
  if x ≥ g.rows.length then none
  else if y ≥ (g.rows.getD x []).length then none
  else some ((g.rows.getD x []).getD y default)

/-- `impl From<X<T, Symetrical>> for X<T, Asymetrical>` (src/x.rs, lines
301-315), used by `X::into_asymetrical` (lines 163-166): each row's `points`
vector is carried over unchanged, so the rows are untouched. -/
def into_asymetrical {T : Type} (g : X T Mode.Sym) : X T Mode.Asym :=
  ⟨g.rows⟩

/-- `impl From<X<T, Asymetrical>> for X<T, Symetrical>` (src/x.rs, lines
279-299), used by `X::into_symetrical` (lines 230-233): computes
`max = rows.iter().map(len).max().unwrap_or(0)`, then for each row runs
`for _ in row.len()..max { row.push(default) }`, i.e. appends
`max - row.len()` default cells. -/
def into_symetrical {T : Type} [Inhabited T] (g : X T Mode.Asym) :
    X T Mode.Sym :=
  ⟨g.rows.map (fun r =>
      r ++ List.replicate (((g.rows.map List.length).max?).getD 0 - r.length)
        default)⟩

/-- `impl<A, U> FromIterator<Vec<A>> for X<A, U>` (src/x.rs, lines 235-248):
collects the supplied rows exactly as given.  The impl is generic over the
mode `U`, so it is available at BOTH disciplines; the caller's requested
result type chooses `M`. -/
def from_iter {T : Type} (M : Mode) (l : List (List T)) : X T M :=
  ⟨l⟩

/-- Modelled from the spec: `with_size(row_count, col_count)` is described in
spec section 4.3 but absent from the source under src/; per the spec it
directly builds a fully-populated rectangular grid of exactly
`row_count × col_count` default-valued cells, without incremental growth. -/
def with_size (T : Type) [Inhabited T] (r c : Nat) : X T Mode.Sym :=
  ⟨List.replicate r (List.replicate c default)⟩

end X

/-- `Grid<T>` (src/lib.rs, lines 196-201): a vector of rows plus a runtime
`symetrical` flag.  `Row<T>` stores `Vec<Column<T>>` and `Column<T>` wraps a
single `T` compared by value, hence `List T` rows. -/
structure Grid (T : Type) where
  rows : List (List T)
  symetrical : Bool
deriving DecidableEq

namespace Grid

/-- `Grid::new` (src/lib.rs, lines 225-230): empty and symetrical. -/
def new (T : Type) : Grid T := ⟨[], true⟩

/-- `Grid::new_no_symetry` (src/lib.rs, lines 232-237): empty and
asymetrical. -/
def new_no_symetry (T : Type) : Grid T := ⟨[], false⟩

/-- `impl PartialEq for Grid` (src/lib.rs, lines 203-210), transcribed
exactly: `self.rows == other.rows && self.symetrical == self.symetrical`.
Note that the second conjunct compares `self.symetrical` with itself. -/
def beq {T : Type} [DecidableEq T] (a b : Grid T) : Bool :=
  (a.rows == b.rows) && (a.symetrical == a.symetrical)

/-- `Grid::add_row` (src/lib.rs, lines 254-261): pushes an empty row; when the
grid is symetrical, resizes that row to `rows[0].len()` with default values
(`rows[0]` after the push is the old first row, or the new row itself when the
grid was empty). -/
def add_row {T : Type} [Inhabited T] (g : Grid T) : Grid T :=
  if g.symetrical then
    ⟨g.rows ++ [List.replicate (g.rows.headD []).length default], g.symetrical⟩
  else
    ⟨g.rows ++ [[]], g.symetrical⟩

/-- The body of `Grid::add_column` after its discipline check (src/lib.rs,
lines 285-290): if there are no rows pushes one empty row, then pushes one
default cell onto every row.  Shared with `Grid::push_point`, whose internal
`self.add_column()` calls happen when the check is known to pass. -/
def add_column_body {T : Type} [Inhabited T] (g : Grid T) : Grid T :=
  ⟨(if g.rows.length == 0 then g.rows ++ [[]] else g.rows).map
      (fun r => r ++ [default]), g.symetrical⟩

/-- The panic message of `Grid::add_column` / `Grid::push_point` on an
asymetrical grid (src/lib.rs, lines 279-282 and 312-315). -/
def modePanic : String := "can only be called on a symetrical grid."

/-- `Grid::add_column` (src/lib.rs, lines 277-291): panics when the grid is
not symetrical (modelled as `Except.error`), else runs the growth body. -/
def add_column {T : Type} [Inhabited T] (g : Grid T) :
    Except String (Grid T) :=
  if !g.symetrical then Except.error modePanic
  else Except.ok (add_column_body g)

/-- `Grid::push_point` (src/lib.rs, lines 310-333): panics when the grid is
not symetrical (modelled as `Except.error`); else bootstraps one row if empty,
grows columns while `rows[0].len() <= y`, grows rows while `rows.len() <= x`,
and writes `value` at `rows[x][y]`.  The Rust `for` ranges are computed once
on entry, giving the same iteration counts as in `X::push_point`. -/
def push_point {T : Type} [Inhabited T] (g : Grid T) (p : Nat × Nat) (v : T) :
    Except String (Grid T) :=
  if !g.symetrical then Except.error modePanic
  else
    let x := p.1
    let y := p.2
    let g1 : Grid T :=
      if g.rows.length == 0 then ⟨g.rows ++ [[]], g.symetrical⟩ else g
    let g2 : Grid T :=
      if (g1.rows.headD []).length ≤ y then
        add_column_body^[y + 1 - (g1.rows.headD []).length] g1
      else g1
    let g3 : Grid T :=
      if g2.rows.length ≤ x then
        add_row^[x + 1 - g2.rows.length] g2
      else g2
    Except.ok ⟨g3.rows.set x ((g3.rows.getD x []).set y v), g3.symetrical⟩

/-- `impl FromIterator<Vec<A>> for Grid` (src/lib.rs, lines 336-346): collects
the supplied rows exactly as given and sets `symetrical: false`. -/
def from_iter {T : Type} (l : List (List T)) : Grid T :=
  ⟨l, false⟩

end Grid

/-! ## List helper lemmas -/

/-- Projection of the `X` constructor. -/
@[simp] theorem x_rows_mk {T : Type} {M : Mode} (l : List (List T)) :
    (⟨l⟩ : X T M).rows = l := rfl

/-- An `X` value is determined by its rows. -/
theorem x_ext {T : Type} {M : Mode} {a b : X T M} (h : a.rows = b.rows) :
    a = b := by
  cases a
  cases b
  cases h
  rfl

theorem headD_mem {α : Type} {l : List α} (h : l ≠ []) (d : α) :
    l.headD d ∈ l := by
  cases l with
  | nil => exact absurd rfl h
  | cons a t => exact List.mem_cons_self a t

theorem headD_append {α : Type} {l t : List α} (h : l ≠ []) (d : α) :
    (l ++ t).headD d = l.headD d := by
  cases l with
  | nil => exact absurd rfl h
  | cons a s => rfl

theorem getD_set_ne {α : Type} (l : List α) {i j : Nat} (a d : α)
    (h : i ≠ j) : (l.set i a).getD j d = l.getD j d := by
  rw [List.getD_eq_getElem?_getD, List.getD_eq_getElem?_getD,
    List.getElem?_set_ne h]

theorem getD_set_self {α : Type} (l : List α) {i : Nat} (a d : α)
    (h : i < l.length) : (l.set i a).getD i d = a := by
  rw [List.getD_eq_getElem _ _ (by simpa using h), List.getElem_set]
  simp

theorem getD_replicate_lt {α : Type} {n i : Nat} (a d : α) (h : i < n) :
    (List.replicate n a).getD i d = a := by
  rw [List.getD_eq_getElem _ _ (by simpa using h)]
  exact List.getElem_replicate a _

theorem le_foldl_max (l : List Nat) (b : Nat) : b ≤ l.foldl max b := by
  induction l generalizing b with
  | nil => exact Nat.le_refl b
  | cons c cs ih => exact Nat.le_trans (Nat.le_max_left b c) (ih (max b c))

theorem mem_le_foldl_max {l : List Nat} {a : Nat} (b : Nat) (h : a ∈ l) :
    a ≤ l.foldl max b := by
  induction l generalizing b with
  | nil => cases h
  | cons c cs ih =>
    rcases List.mem_cons.mp h with rfl | h2
    · exact Nat.le_trans (Nat.le_max_right b a) (le_foldl_max cs (max b a))
    · exact ih (max b c) h2

/-- Every member of a list of naturals is bounded by `max().unwrap_or(0)`. -/
theorem le_max?_getD {l : List Nat} {a : Nat} (h : a ∈ l) :
    a ≤ l.max?.getD 0 := by
  cases l with
  | nil => cases h
  | cons c cs =>
    rcases List.mem_cons.mp h with rfl | h2
    · exact le_foldl_max cs a
    · exact mem_le_foldl_max c h2

theorem foldl_max_const {l : List Nat} {L : Nat} (h : ∀ a ∈ l, a = L) :
    l.foldl max L = L := by
  induction l with
  | nil => rfl
  | cons c cs ih =>
    have hc : c = L := h c (List.mem_cons_self c cs)
    rw [List.foldl_cons, hc, Nat.max_self]
    exact ih (fun a ha => h a (List.mem_cons_of_mem c ha))

/-- On a nonempty constant list, `max().unwrap_or(0)` is that constant. -/
theorem max?_getD_const {l : List Nat} {L : Nat} (hne : l ≠ [])
    (h : ∀ a ∈ l, a = L) : l.max?.getD 0 = L := by
  cases l with
  | nil => exact absurd rfl hne
  | cons c cs =>
    have hc : c = L := h c (List.mem_cons_self c cs)
    show cs.foldl max c = L
    rw [hc]
    exact foldl_max_const (fun a ha => h a (List.mem_cons_of_mem c ha))

/-! ## The rectangular invariant and its preservation -/

/-- The rectangular invariant as the spec words it: every pair of rows in the
grid has equal length. -/
def Rectangular {T : Type} {M : Mode} (g : X T M) : Prop :=
  ∀ r1 ∈ g.rows, ∀ r2 ∈ g.rows, r1.length = r2.length

instance {T : Type} {M : Mode} (g : X T M) : Decidable (Rectangular g) :=
  inferInstanceAs (Decidable (∀ r1 ∈ g.rows, ∀ r2 ∈ g.rows,
    r1.length = r2.length))

/-- All rows of the grid have length exactly `L`. -/
def RectL {T : Type} {M : Mode} (g : X T M) (L : Nat) : Prop :=
  ∀ r ∈ g.rows, r.length = L

instance {T : Type} {M : Mode} (g : X T M) (L : Nat) : Decidable (RectL g L) :=
  inferInstanceAs (Decidable (∀ r ∈ g.rows, r.length = L))

theorem rectangular_of_rectL {T : Type} {M : Mode} {g : X T M} {L : Nat}
    (h : RectL g L) : Rectangular g :=
  fun r1 h1 r2 h2 => (h r1 h1).trans (h r2 h2).symm

theorem add_row_rows {T : Type} [Inhabited T] (g : X T Mode.Sym) :
    (X.add_row g).rows =
      g.rows ++ [List.replicate (g.rows.headD []).length default] := rfl

theorem rectL_add_row {T : Type} [Inhabited T] {g : X T Mode.Sym} {L : Nat}
    (hne : g.rows ≠ []) (hL : RectL g L) : RectL (X.add_row g) L := by
  intro r hr
  rw [add_row_rows] at hr
  rcases List.mem_append.mp hr with h | h
  · exact hL r h
  · have he : r = List.replicate (g.rows.headD []).length default := by
      simpa using h
    subst he
    rw [List.length_replicate]
    exact hL _ (headD_mem hne [])

theorem rectEx_add_row {T : Type} [Inhabited T] {g : X T Mode.Sym}
    (h : ∃ L, RectL g L) : ∃ L, RectL (X.add_row g) L := by
  rcases h with ⟨L, hL⟩
  by_cases hne : g.rows = []
  · refine ⟨0, ?_⟩
    intro r hr
    rw [add_row_rows, hne] at hr
    simp at hr
    subst hr
    rfl
  · exact ⟨L, rectL_add_row hne hL⟩

theorem add_column_rows_ne_nil {T : Type} [Inhabited T] {g : X T Mode.Sym}
    (h : g.rows ≠ []) :
    (X.add_column g).rows = g.rows.map (fun r => r ++ [default]) := by
  unfold X.add_column
  rw [x_rows_mk, if_neg (by simp [List.isEmpty_iff, h])]

theorem add_column_ne_nil {T : Type} [Inhabited T] {g : X T Mode.Sym}
    (h : g.rows ≠ []) : (X.add_column g).rows ≠ [] := by
  rw [add_column_rows_ne_nil h]
  simpa using h

theorem rectL_add_column {T : Type} [Inhabited T] {g : X T Mode.Sym} {L : Nat}
    (hne : g.rows ≠ []) (hL : RectL g L) : RectL (X.add_column g) (L + 1) := by
  intro r hr
  rw [add_column_rows_ne_nil hne] at hr
  rcases List.mem_map.mp hr with ⟨r0, hr0, rfl⟩
  rw [List.length_append, hL r0 hr0]
  rfl

theorem rectEx_add_column {T : Type} [Inhabited T] {g : X T Mode.Sym}
    (h : ∃ L, RectL g L) : ∃ L, RectL (X.add_column g) L := by
  rcases h with ⟨L, hL⟩
  by_cases hne : g.rows = []
  · refine ⟨1, ?_⟩
    intro r hr
    unfold X.add_column at hr
    rw [x_rows_mk, hne] at hr
    simp at hr
    subst hr
    rfl
  · exact ⟨L + 1, rectL_add_column hne hL⟩

theorem rectEx_iterate {T : Type} [Inhabited T]
    {f : X T Mode.Sym → X T Mode.Sym}
    (hf : ∀ g, (∃ L, RectL g L) → ∃ L, RectL (f g) L) :
    ∀ (n : Nat) (g : X T Mode.Sym), (∃ L, RectL g L) →
      ∃ L, RectL (f^[n] g) L := by
  intro n
  induction n with
  | zero =>
    intro g h
    simpa using h
  | succ n ih =>
    intro g h
    rw [Function.iterate_succ_apply']
    exact hf _ (ih g h)

theorem rectEx_ensure_row {T : Type} {g : X T Mode.Sym}
    (h : ∃ L, RectL g L) : ∃ L, RectL (X.ensure_row g) L := by
  unfold X.ensure_row
  split
  · next he =>
    refine ⟨0, ?_⟩
    intro r hr
    rw [x_rows_mk, List.isEmpty_iff.mp he] at hr
    simp at hr
    subst hr
    rfl
  · exact h

theorem rectEx_grow_columns {T : Type} [Inhabited T] {g : X T Mode.Sym}
    (h : ∃ L, RectL g L) (y : Nat) : ∃ L, RectL (X.grow_columns g y) L := by
  unfold X.grow_columns
  split
  · exact rectEx_iterate (fun g hg => rectEx_add_column hg) _ g h
  · exact h

theorem rectEx_grow_rows {T : Type} [Inhabited T] {g : X T Mode.Sym}
    (h : ∃ L, RectL g L) (x : Nat) : ∃ L, RectL (X.grow_rows g x) L := by
  unfold X.grow_rows
  split
  · exact rectEx_iterate (fun g hg => rectEx_add_row hg) _ g h
  · exact h

theorem rectL_set_point {T : Type} [Inhabited T] {g : X T Mode.Sym} {L : Nat}
    (hL : RectL g L) (x y : Nat) (v : T) :
    RectL (⟨g.rows.set x ((g.rows.getD x []).set y v)⟩ : X T Mode.Sym) L := by
  intro r hr
  rw [x_rows_mk] at hr
  by_cases hx : x < g.rows.length
  · obtain ⟨i, hi, rfl⟩ := List.mem_iff_getElem.mp hr
    rw [List.getElem_set]
    split
    · rw [List.length_set, List.getD_eq_getElem g.rows [] hx]
      exact hL _ (List.getElem_mem hx)
    · exact hL _ (List.getElem_mem (by simpa using hi))
  · rw [List.set_eq_of_length_le (by omega)] at hr
    exact hL r hr

theorem rectEx_push_point {T : Type} [Inhabited T] {g : X T Mode.Sym}
    (h : ∃ L, RectL g L) (x y : Nat) (v : T) :
    ∃ L, RectL (X.push_point g x y v) L := by
  rcases rectEx_grow_rows (rectEx_grow_columns (rectEx_ensure_row h) y) x
    with ⟨L, hL⟩
  exact ⟨L, rectL_set_point hL x y v⟩

theorem rectL_into_symetrical {T : Type} [Inhabited T] (g : X T Mode.Asym) :
    RectL (X.into_symetrical g) (((g.rows.map List.length).max?).getD 0) := by
  intro r hr
  unfold X.into_symetrical at hr
  rw [x_rows_mk] at hr
  rcases List.mem_map.mp hr with ⟨r0, hr0, rfl⟩
  rw [List.length_append, List.length_replicate]
  have hle : r0.length ≤ ((g.rows.map List.length).max?).getD 0 :=
    le_max?_getD (List.mem_map_of_mem List.length hr0)
  omega

/-! ## Explicit forms of the growth loops -/

theorem add_column_iterate {T : Type} [Inhabited T] {g : X T Mode.Sym}
    (h : g.rows ≠ []) (n : Nat) :
    (X.add_column^[n] g).rows =
      g.rows.map (fun r => r ++ List.replicate n default) := by
  induction n with
  | zero => simp
  | succ n ih =>
    rw [Function.iterate_succ_apply',
      add_column_rows_ne_nil (by rw [ih]; simpa using h), ih, List.map_map]
    refine List.map_congr_left (fun r _ => ?_)
    show (r ++ List.replicate n default) ++ [default] = _
    rw [List.append_assoc, ← List.replicate_succ']

theorem add_row_iterate {T : Type} [Inhabited T] {g : X T Mode.Sym}
    (h : g.rows ≠ []) (n : Nat) :
    (X.add_row^[n] g).rows =
      g.rows ++
        List.replicate n
          (List.replicate (g.rows.headD []).length default) := by
  induction n with
  | zero => simp
  | succ n ih =>
    rw [Function.iterate_succ_apply', add_row_rows, ih, headD_append h,
      List.append_assoc, ← List.replicate_succ']

/-- The exact shape produced by `push_point` on an initially empty grid:
`x + 1` rows of `y + 1` default cells, with `v` written at `(x, y)`. -/
theorem push_point_new_rows {T : Type} [Inhabited T] (x y : Nat) (v : T) :
    (X.push_point (X.new T Mode.Sym) x y v).rows =
      (List.replicate (x + 1) (List.replicate (y + 1) (default : T))).set x
        ((List.replicate (y + 1) (default : T)).set y v) := by
  have h1 : X.ensure_row (X.new T Mode.Sym) = (⟨[[]]⟩ : X T Mode.Sym) := rfl
  have h2 : X.grow_columns (⟨[[]]⟩ : X T Mode.Sym) y =
      (⟨[List.replicate (y + 1) (default : T)]⟩ : X T Mode.Sym) := by
    apply x_ext
    unfold X.grow_columns
    rw [if_pos (by simp)]
    rw [add_column_iterate (by simp)]
    simp
  have h3 : X.grow_rows
      (⟨[List.replicate (y + 1) (default : T)]⟩ : X T Mode.Sym) x =
      (⟨List.replicate (x + 1)
        (List.replicate (y + 1) (default : T))⟩ : X T Mode.Sym) := by
    apply x_ext
    unfold X.grow_rows
    by_cases hx : 1 ≤ x
    · rw [if_pos (by simpa using hx)]
      rw [add_row_iterate (by simp)]
      simp [List.replicate_succ]
    · have hx0 : x = 0 := by omega
      subst hx0
      rw [if_neg (by simp)]
      rfl
  unfold X.push_point
  rw [h1, h2, h3, x_rows_mk, x_rows_mk,
    getD_replicate_lt _ _ (Nat.lt_succ_self x)]

/-! ## Reachability of rectangular grids through the public interface -/

/-- The rectangular (`Symetrical`) grid values reachable through the public
interface of `X`, excluding the mode-generic from-iterator construction:
`new`, `add_row`, `add_column`, `push_point`, and conversion from a jagged
grid. -/
inductive SymReachable (T : Type) [Inhabited T] : X T Mode.Sym → Prop where
  | new : SymReachable T (X.new T Mode.Sym)
  | add_row {g : X T Mode.Sym} :
      SymReachable T g → SymReachable T (X.add_row g)
  | add_column {g : X T Mode.Sym} :
      SymReachable T g → SymReachable T (X.add_column g)
  | push_point {g : X T Mode.Sym} (x y : Nat) (v : T) :
      SymReachable T g → SymReachable T (X.push_point g x y v)
  | from_jagged (a : X T Mode.Asym) : SymReachable T (X.into_symetrical a)

theorem rectEx_of_symReachable {T : Type} [Inhabited T] {g : X T Mode.Sym}
    (h : SymReachable T g) : ∃ L, RectL g L := by
  induction h with
  | new => exact ⟨0, fun r hr => absurd hr (by simp [X.new])⟩
  | add_row _ ih => exact rectEx_add_row ih
  | add_column _ ih => exact rectEx_add_column ih
  | push_point x y v _ ih => exact rectEx_push_point ih x y v
  | from_jagged a => exact ⟨_, rectL_into_symetrical a⟩

/-! ## Claim theorems -/

/-- A jagged grid whose rows all share one length padded to the maximum stays
unchanged. -/
theorem pad_to_max_eq_self {T : Type} [Inhabited T] {l : List (List T)}
    (h : ∀ r1 ∈ l, ∀ r2 ∈ l, r1.length = r2.length) :
    l.map (fun r =>
      r ++ List.replicate (((l.map List.length).max?).getD 0 - r.length)
        default) = l := by
  cases l with
  | nil => rfl
  | cons a t =>
    have hmax : (((a :: t).map List.length).max?).getD 0 = a.length := by
      refine max?_getD_const (by simp) ?_
      intro b hb
      rcases List.mem_map.mp hb with ⟨r, hr, rfl⟩
      exact h r hr a (List.mem_cons_self a t)
    rw [hmax]
    have hrow : ∀ r ∈ a :: t,
        r ++ List.replicate (a.length - r.length) (default : T) = r := by
      intro r hr
      have hlen : r.length = a.length := h r hr a (List.mem_cons_self a t)
      have h0 : a.length - r.length = 0 := by omega
      rw [h0]
      simp
    rw [List.map_congr_left hrow]
    simp

/-- C2 counterexample: the `X` from-iterator impl is generic over the mode, so
the public interface can construct a rectangular-mode grid whose rows were
copied as given — here with unequal lengths, violating the rectangular
invariant at an observable point. -/
theorem c2_from_iter_sym_counterexample :
    ¬ Rectangular (X.from_iter Mode.Sym [[0, 0], [0]] : X Nat Mode.Sym) := by
  decide

/-- C2 (amended): every rectangular grid value reachable through `new`,
`add_row`, `add_column`, `push_point`, and conversion from a jagged grid has
all rows of equal length at every observable point (trivially including the
zero-row case); construction from an iterator of rows, however, is also
available at the rectangular discipline and copies the supplied row lengths
as given, so it is excluded. -/
theorem c2_reachable_rectangular {T : Type} [Inhabited T] (g : X T Mode.Sym)
    (h : SymReachable T g) : Rectangular g := by
  rcases rectEx_of_symReachable h with ⟨L, hL⟩
  exact rectangular_of_rectL hL

/-- C2 witness: a grid built by a `push_point` growth step on the empty grid
satisfies the rectangular invariant. -/
theorem c2_reachable_rectangular_witness :
    Rectangular (X.push_point (X.new Nat Mode.Sym) 2 1 7) :=
  c2_reachable_rectangular (X.push_point (X.new Nat Mode.Sym) 2 1 7)
    (SymReachable.push_point 2 1 7 SymReachable.new)

/-- C3: `push_point x y v` on an initially empty rectangular grid grows it to
exactly `x + 1` rows, each of length exactly `y + 1`, writes `v` at `(x, y)`
so that `get_point x y` returns `v`, and every other cell created by the
growth equals the value type's default. -/
theorem c3_push_point_on_empty {T : Type} [Inhabited T] (x y : Nat) (v : T) :
    (X.push_point (X.new T Mode.Sym) x y v).rows.length = x + 1 ∧
    (∀ r ∈ (X.push_point (X.new T Mode.Sym) x y v).rows,
      r.length = y + 1) ∧
    X.get_point (X.push_point (X.new T Mode.Sym) x y v) x y = some v ∧
    ∀ i j, i ≤ x → j ≤ y → ¬(i = x ∧ j = y) →
      ((X.push_point (X.new T Mode.Sym) x y v).rows.getD i []).getD j
        default = default := by
  have hrows := push_point_new_rows (T := T) x y v
  have hlen : (X.push_point (X.new T Mode.Sym) x y v).rows.length = x + 1 := by
    rw [hrows, List.length_set, List.length_replicate]
  have hrowx : (X.push_point (X.new T Mode.Sym) x y v).rows.getD x [] =
      (List.replicate (y + 1) (default : T)).set y v := by
    rw [hrows]
    exact getD_set_self _ _ _ (by rw [List.length_replicate]; omega)
  refine ⟨hlen, ?_, ?_, ?_⟩
  · intro r hr
    rw [hrows] at hr
    obtain ⟨i, hi, rfl⟩ := List.mem_iff_getElem.mp hr
    rw [List.getElem_set]
    split
    · rw [List.length_set, List.length_replicate]
    · rw [List.getElem_replicate, List.length_replicate]
  · unfold X.get_point
    rw [if_neg (by rw [hlen]; omega), hrowx, List.length_set,
      List.length_replicate, if_neg (by omega),
      getD_set_self _ _ _ (by rw [List.length_replicate]; omega)]
  · intro i j hi hj hne
    by_cases hix : i = x
    · subst hix
      have hjy : j ≠ y := fun hh => hne ⟨rfl, hh⟩
      rw [hrowx, getD_set_ne _ _ _ (fun hh => hjy hh.symm)]
      exact getD_replicate_lt _ _ (by omega)
    · rw [hrows, getD_set_ne _ _ _ (fun hh => hix hh.symm),
        getD_replicate_lt _ _ (by omega)]
      exact getD_replicate_lt _ _ (by omega)

/-- C3 witness (Scenario A): `push_point (3, 4) 5` on the empty grid makes
`get_point 3 4` return `5`, and the cell at `(0, 0)` equals the default. -/
theorem c3_push_point_on_empty_witness :
    X.get_point (X.push_point (X.new Int Mode.Sym) 3 4 5) 3 4 = some 5 ∧
    ((X.push_point (X.new Int Mode.Sym) 3 4 5).rows.getD 0 []).getD 0
      default = default :=
  ⟨(c3_push_point_on_empty 3 4 5).2.2.1,
   (c3_push_point_on_empty 3 4 5).2.2.2 0 0 (by decide) (by decide)
     (by decide)⟩

/-- C5: converting a jagged grid to rectangular keeps the row count, turns
each row into the original row followed by default padding up to the maximum
row length, and leaves every row with exactly the maximum length — no row is
truncated. -/
theorem c5_to_rectangular_pads {T : Type} [Inhabited T] (g : X T Mode.Asym) :
    (X.into_symetrical g).rows.length = g.rows.length ∧
    (∀ i, i < g.rows.length →
      (X.into_symetrical g).rows.getD i [] =
        g.rows.getD i [] ++
          List.replicate (((g.rows.map List.length).max?).getD 0 -
            (g.rows.getD i []).length) default) ∧
    RectL (X.into_symetrical g) (((g.rows.map List.length).max?).getD 0) := by
  refine ⟨?_, ?_, rectL_into_symetrical g⟩
  · unfold X.into_symetrical
    rw [x_rows_mk, List.length_map]
  · intro i hi
    unfold X.into_symetrical
    rw [x_rows_mk,
      List.getD_eq_getElem _ _ (by rw [List.length_map]; omega)]
    simp only [List.getElem_map]
    rw [List.getD_eq_getElem _ _ hi]

/-- C5 witness: padding the spec's example `[[1,2,3],[4,5]]` — row 1 becomes
the original row followed by default padding up to the maximum length 3. -/
theorem c5_to_rectangular_pads_witness :
    (X.into_symetrical (⟨[[1, 2, 3], [4, 5]]⟩ : X Int Mode.Asym)).rows.getD 1
        [] =
      (⟨[[1, 2, 3], [4, 5]]⟩ : X Int Mode.Asym).rows.getD 1 [] ++
        List.replicate
          ((((⟨[[1, 2, 3], [4, 5]]⟩ : X Int Mode.Asym).rows.map
            List.length).max?).getD 0 -
            ((⟨[[1, 2, 3], [4, 5]]⟩ : X Int Mode.Asym).rows.getD 1 []).length)
          default :=
  (c5_to_rectangular_pads (⟨[[1, 2, 3], [4, 5]]⟩ : X Int Mode.Asym)).2.1 1
    (by decide)

/-- C6: on a rectangular grid whose rows all have equal length, converting to
jagged and back to rectangular returns an equal grid, and the
rectangular-to-jagged direction changes no data. -/
theorem c6_roundtrip_rectangular {T : Type} [Inhabited T] (g : X T Mode.Sym)
    (h : Rectangular g) :
    X.into_symetrical (X.into_asymetrical g) = g ∧
    (X.into_asymetrical g).rows = g.rows := by
  refine ⟨x_ext ?_, rfl⟩
  unfold X.into_symetrical X.into_asymetrical
  rw [x_rows_mk, x_rows_mk, x_rows_mk]
  exact pad_to_max_eq_self h

/-- C6 witness: the round trip on the concrete rectangular grid
`[[1,2],[3,4]]`. -/
theorem c6_roundtrip_rectangular_witness :
    X.into_symetrical (X.into_asymetrical (⟨[[1, 2], [3, 4]]⟩ :
      X Int Mode.Sym)) = (⟨[[1, 2], [3, 4]]⟩ : X Int Mode.Sym) :=
  (c6_roundtrip_rectangular (⟨[[1, 2], [3, 4]]⟩ : X Int Mode.Sym)
    (by decide)).1

/-- C1: the spec claims two grids are equal iff they have the same discipline
and identical row sequences, so a rectangular and a jagged grid with identical
rows must be unequal.  The code's `Grid` equality however compares
`self.symetrical` with itself, so two empty grids of different disciplines
compare equal: the discipline is ignored. -/
theorem c1_grid_equality_ignores_discipline :
    Grid.beq (Grid.new Nat) (Grid.new_no_symetry Nat) = true ∧
    (Grid.new Nat).symetrical ≠ (Grid.new_no_symetry Nat).symetrical := by
  decide

/-- C4 counterexample: the `X` from-iterator impl is generic over the mode, so
an externally supplied sequence of rows can be collected directly into a
rectangular-mode grid, with its (here unequal) row lengths preserved — no
explicit conversion involved, and the result is not jagged. -/
theorem c4_from_iter_sym_counterexample :
    (X.from_iter Mode.Sym [[1, 2], [3]] : X Int Mode.Sym).rows = [[1, 2], [3]] ∧
    ¬ ∀ r1 ∈ (X.from_iter Mode.Sym [[1, 2], [3]] : X Int Mode.Sym).rows,
        ∀ r2 ∈ (X.from_iter Mode.Sym [[1, 2], [3]] : X Int Mode.Sym).rows,
          r1.length = r2.length := by
  decide

/-- C4 (amended): constructing a `Grid` from an iterator of rows always yields
a jagged grid with the row lengths preserved exactly as given; constructing an
`X` from an iterator of rows also preserves the rows exactly, but the impl is
available at either discipline, so a rectangular `X` can be obtained from such
input directly, without an explicit conversion. -/
theorem c4_from_iter_discipline {T : Type} (l : List (List T)) (M : Mode) :
    (Grid.from_iter l).symetrical = false ∧
    (Grid.from_iter l).rows = l ∧
    (X.from_iter M l : X T M).rows = l :=
  ⟨rfl, rfl, rfl⟩

/-- C7: `get_point x y` and `get_point_mut x y` are absent exactly when
`x >= row_count` or `y >= length(row x)`, and otherwise return the value at
`(x, y)`; both agree, and being pure functions of the grid they grow nothing
and mutate nothing. -/
theorem c7_get_point_bounds {T : Type} [Inhabited T] {M : Mode} (g : X T M)
    (x y : Nat) :
    (X.get_point g x y = none ↔
      g.rows.length ≤ x ∨ (g.rows.getD x []).length ≤ y) ∧
    (x < g.rows.length → y < (g.rows.getD x []).length →
      X.get_point g x y = some ((g.rows.getD x []).getD y default)) ∧
    X.get_point_mut g x y = X.get_point g x y := by
  refine ⟨?_, ?_, rfl⟩
  · unfold X.get_point
    split
    next h1 => exact iff_of_true rfl (Or.inl (by omega))
    next h1 =>
      split
      next h2 => exact iff_of_true rfl (Or.inr (by omega))
      next h2 =>
        refine iff_of_false (fun hc => Option.noConfusion hc) ?_
        push_neg
        omega
  · intro hx hy
    unfold X.get_point
    rw [if_neg (by omega), if_neg (by omega)]

/-- C7 witness: the bounds contract applied to the concrete grid
`[[1, 2], [3]]` at the in-range point `(0, 1)`. -/
theorem c7_get_point_bounds_witness :
    X.get_point (⟨[[1, 2], [3]]⟩ : X Int Mode.Asym) 0 1 =
      some (((⟨[[1, 2], [3]]⟩ : X Int Mode.Asym).rows.getD 0 []).getD 1
        default) :=
  (c7_get_point_bounds (⟨[[1, 2], [3]]⟩ : X Int Mode.Asym) 0 1).2.1
    (by decide) (by decide)

/-- C8: invoking a rectangular-only operation (`add_column` or `push_point`)
on a jagged `Grid` is fatal — the operation aborts with a panic before any
mutation, rather than silently doing nothing or producing a default result. -/
theorem c8_asym_mutators_fatal {T : Type} [Inhabited T] (g : Grid T)
    (p : Nat × Nat) (v : T) (h : g.symetrical = false) :
    Grid.add_column g = Except.error Grid.modePanic ∧
    Grid.push_point g p v = Except.error Grid.modePanic := by
  constructor
  · unfold Grid.add_column
    rw [h]
    rfl
  · unfold Grid.push_point
    rw [h]
    rfl

/-- C8 witness: both rectangular-only mutators abort on the concrete jagged
grid `Grid::new_no_symetry()`. -/
theorem c8_asym_mutators_fatal_witness :
    (Grid.new_no_symetry Nat).symetrical = false ∧
    Grid.add_column (Grid.new_no_symetry Nat) = Except.error Grid.modePanic ∧
    Grid.push_point (Grid.new_no_symetry Nat) (0, 0) 0 =
      Except.error Grid.modePanic :=
  ⟨rfl, c8_asym_mutators_fatal (Grid.new_no_symetry Nat) (0, 0) 0 rfl⟩

/-- On an in-bounds point of a rectangular grid, none of the growth stages of
`push_point` fire: the result is a single cell write. -/
theorem push_point_in_bounds_rows {T : Type} [Inhabited T]
    {g : X T Mode.Sym} {L x y : Nat} (v : T) (hL : RectL g L)
    (hx : x < g.rows.length) (hy : y < L) :
    (X.push_point g x y v).rows =
      g.rows.set x ((g.rows.getD x []).set y v) := by
  have hne : g.rows ≠ [] := List.ne_nil_of_length_pos (by omega)
  have h1 : X.ensure_row g = g := by
    unfold X.ensure_row
    rw [if_neg (by simp [List.isEmpty_iff, hne])]
  have hhead : (g.rows.headD []).length = L := hL _ (headD_mem hne [])
  have h2 : X.grow_columns g y = g := by
    unfold X.grow_columns
    rw [if_neg (by omega)]
  have h3 : X.grow_rows g x = g := by
    unfold X.grow_rows
    rw [if_neg (by omega)]
  unfold X.push_point
  rw [h1, h2, h3, x_rows_mk]

/-- C10: on a rectangular grid with column count `L` and an in-bounds point
`(x, y)`, `push_point` overwrites only the cell at `(x, y)`: the row count and
every row's length are unchanged, `get_point x y` returns the new value, every
row other than row `x` is unchanged, and every cell of row `x` other than
column `y` is unchanged. -/
theorem c10_push_point_in_bounds_frame {T : Type} [Inhabited T]
    (g : X T Mode.Sym) (L x y : Nat) (v : T) (hL : RectL g L)
    (hx : x < g.rows.length) (hy : y < L) :
    (X.push_point g x y v).rows.length = g.rows.length ∧
    RectL (X.push_point g x y v) L ∧
    X.get_point (X.push_point g x y v) x y = some v ∧
    (∀ i, i ≠ x →
      (X.push_point g x y v).rows.getD i [] = g.rows.getD i []) ∧
    (∀ j, j ≠ y →
      ((X.push_point g x y v).rows.getD x []).getD j default =
        (g.rows.getD x []).getD j default) := by
  have hrows := push_point_in_bounds_rows v hL hx hy
  have hrowlen : (g.rows.getD x []).length = L := by
    rw [List.getD_eq_getElem g.rows [] hx]
    exact hL _ (List.getElem_mem hx)
  have hrowx : (X.push_point g x y v).rows.getD x [] =
      (g.rows.getD x []).set y v := by
    rw [hrows]
    exact getD_set_self _ _ _ hx
  refine ⟨?_, ?_, ?_, ?_, ?_⟩
  · rw [hrows, List.length_set]
  · rw [x_ext (b := (⟨g.rows.set x ((g.rows.getD x []).set y v)⟩ :
      X T Mode.Sym)) hrows]
    exact rectL_set_point hL x y v
  · unfold X.get_point
    rw [if_neg (by rw [hrows, List.length_set]; omega), hrowx,
      List.length_set, if_neg (by omega),
      getD_set_self _ _ _ (by omega)]
  · intro i hi
    rw [hrows, getD_set_ne _ _ _ (fun hh => hi hh.symm)]
  · intro j hj
    rw [hrowx, getD_set_ne _ _ _ (fun hh => hj hh.symm)]

/-- C10 witness: overwriting the in-bounds cell `(0, 1)` of `[[1,2],[3,4]]`
leaves row `1` and the cell `(0, 0)` unchanged while `get_point 0 1` sees the
new value. -/
theorem c10_push_point_in_bounds_frame_witness :
    X.get_point (X.push_point (⟨[[1, 2], [3, 4]]⟩ : X Int Mode.Sym) 0 1 9) 0 1
      = some 9 :=
  (c10_push_point_in_bounds_frame (⟨[[1, 2], [3, 4]]⟩ : X Int Mode.Sym) 2 0 1 9
    (by decide) (by decide) (by decide)).2.2.1

/-- C9: `with_size(2, 3)` over the integers is a fully-populated 2 × 3
rectangular grid of default zeros, and it equals the grid built by two
`add_row()` calls on an empty rectangular grid followed by three
`add_column()` calls. -/
theorem c9_with_size_two_three :
    (X.with_size Int 2 3).rows = [[0, 0, 0], [0, 0, 0]] ∧
    X.with_size Int 2 3 =
      X.add_column (X.add_column (X.add_column
        (X.add_row (X.add_row (X.new Int Mode.Sym))))) := by
  decide

end GridSpec
